import Mathlib

/-!
Verification development for the vscode-ts-semantic-highlight extension.

The repository consists of a VS Code extension (several revisions of
`extension.ts` plus a `utils.ts` helper module) that classifies identifiers
of a TypeScript document into semantic categories and renders one text-editor
decoration per classified identifier.  This file gives a shallow embedding of
the extension's own logic: the flag table, the allow-list membership test
`isNeedSematic`, the tree visitors, `makeDecoration`, `minProperty` /
`maxProperty`, `doIncrementalHighlight`, `handleTextDocumentChange` and the
`onDidChangeActiveTextEditor` handler.  The TypeScript compiler services and
the VS Code host are black boxes and enter the embedding as parameters
(resolver functions, an `updateSourceFile` / `createProgram` environment,
documents with precomputed offsets).  JavaScript faults (property access on
`undefined`, `node.parent` being `undefined` at the root) are modelled with
`Option`, `none` standing for the thrown `TypeError`.
-/

namespace TsSemHL

/-- Flag-name/value table of `SematicHighlightFlags` as written in the older
revision of `extension.ts` (the current revision imports the identical table
as `semanticHighlightFlags` from `./common`).  Order is the object-literal
insertion order, which is what `Object.keys` enumerates. -/
def semanticHighlightFlagPairs : List (String × Nat) :=
  [("FunctionScopedVariable", 1),
   ("BlockScopedVariable", 2),
   ("Variable", 3),
   ("Enum", 384),
   ("ConstEnum", 128),
   ("EnumMember", 8),
   ("Method", 8192),
   ("GetAccessor", 32768),
   ("SetAccessor", 65536),
   ("Signature", 131072),
   ("TypeParameter", 262144),
   ("TypeAlias", 524288),
   ("Alias", 2097152),
   ("Type", 67897832),
   ("ExportStar", 8388608),
   ("Optional", 16777216),
   ("FunctionScopedVariableExcludes", 67220414),
   ("BlockScopedVariableExcludes", 67220415),
   ("ParameterExcludes", 67220415),
   ("EnumMemberExcludes", 68008959),
   ("FunctionExcludes", 67219887),
   ("NamespaceModuleExcludes", 0),
   ("GetAccessorExcludes", 67154879),
   ("SetAccessorExcludes", 67187647),
   ("TypeParameterExcludes", 67635688),
   ("TypeAliasExcludes", 67897832),
   ("AliasExcludes", 2097152),
   ("PropertyOrAccessor", 98308)]

namespace semanticHighlightFlags

/-- Flag constant `FunctionScopedVariable` of the flag table. -/
def FunctionScopedVariable : Nat := 1

/-- Flag constant `BlockScopedVariable` of the flag table. -/
def BlockScopedVariable : Nat := 2

/-- Flag constant `Variable` of the flag table. -/
def Variable : Nat := 3

/-- Flag constant `Enum` of the flag table. -/
def Enum : Nat := 384

/-- Flag constant `ConstEnum` of the flag table. -/
def ConstEnum : Nat := 128

/-- Flag constant `EnumMember` of the flag table. -/
def EnumMember : Nat := 8

/-- Flag constant `TypeParameter` of the flag table. -/
def TypeParameter : Nat := 262144

/-- Flag constant `TypeAlias` of the flag table. -/
def TypeAlias : Nat := 524288

/-- Flag constant `Type` of the flag table (`Type` is a Lean keyword, hence
the guillemets). -/
def «Type» : Nat := 67897832

end semanticHighlightFlags

/-- Membership test `isNeedSematic` of the older `extension.ts` revision
(spelled `isNeedsemantic` in the current one, same body):
`Object.keys(flags).find(key => flags[key] === flag)`; the result is the
first key whose value equals the flag, or `undefined` (here `none`). -/
def isNeedSematic (flag : Nat) : Option String :=
  (semanticHighlightFlagPairs.find? (fun kv => kv.2 == flag)).map (fun kv => kv.1)

/-- Offset interval of a symbol or decoration; the source field `end` is a
Lean keyword and is rendered as `endPos` throughout this file. -/
structure OffsetRange where
  start : Nat
  endPos : Nat
deriving DecidableEq, Repr

/-- The `SimpleSymbol` record of the current `extension.ts`:
`{ range, kind, text }` where `kind` holds `symbol.flags`. -/
structure SimpleSymbol where
  range : OffsetRange
  kind : Nat
  text : String
deriving DecidableEq, Repr

/-- The `SimpleSymbol` record of the older revision, which additionally
stores `parentKind: node.parent.kind`. -/
structure SimpleSymbol1 where
  range : OffsetRange
  kind : Nat
  text : String
  parentKind : Nat
deriving DecidableEq, Repr

/-- Syntax-tree node as the extension consumes it: `kind`, the `pos` / `end`
offsets, and the children enumerated by `ts.forEachChild`. -/
inductive TsNode where
  | mk (kind : Nat) (pos : Nat) (endPos : Nat) (children : List TsNode)

/-- The `kind` field of a node. -/
def TsNode.kind : TsNode → Nat
  | .mk k _ _ _ => k

/-- The `pos` field of a node. -/
def TsNode.pos : TsNode → Nat
  | .mk _ p _ _ => p

/-- The `end` field of a node (`endPos` here, `end` being a keyword). -/
def TsNode.endPos : TsNode → Nat
  | .mk _ _ e _ => e

/-- The children of a node, as enumerated by `ts.forEachChild`. -/
def TsNode.children : TsNode → List TsNode
  | .mk _ _ _ cs => cs

/-- Outcome of `typeChecker.getSymbolAtLocation(node)`: the call can throw
(`throws`), return `undefined` (`missing`) or return a symbol with a display
name and a flags bitmask (`found`). -/
inductive ResolveResult where
  | throws
  | missing
  | found (name : String) (flags : Nat)
deriving DecidableEq, Repr

/-- Resolved symbol as the older revision's visitor consumes it
(`symbol.name` and `symbol.flags`); that visitor has no catch region, so a
resolver for it returns `Option Symbol` rather than `ResolveResult`. -/
structure Symbol where
  name : String
  flags : Nat
deriving DecidableEq, Repr

/-- Visitor of the incremental `extension.ts` revision, processed over a
forest of sibling subtrees.  The source is

```
function visitor(typeChecker, node, symbols) {
  let symbol;
  try {
    symbol = typeChecker.getSymbolAtLocation(node);
    if (symbol) { symbols.push({ text, range: {start: node.pos, end: node.end}, kind: symbol.flags }); }
    ts.forEachChild(node, (child) => { visitor(typeChecker, child, symbols); });
  } catch(e) { console.error(...); }
}
```

The `try` block encloses both the resolution call and the recursion into the
children, so a `throws` outcome at a node discards that node together with
its entire subtree; recursive calls themselves never propagate an exception
because each one carries its own catch region. -/
def visitorF (resolve : TsNode → ResolveResult) : List TsNode → List SimpleSymbol
  | [] => []
  | TsNode.mk k p e cs :: rest =>
    (match resolve (TsNode.mk k p e cs) with
     | .throws => []
     | .missing => visitorF resolve cs
     | .found name flags =>
         { range := { start := p, endPos := e }, kind := flags, text := name } :: visitorF resolve cs)
    ++ visitorF resolve rest

/-- The visitor applied to a single root node, as `visitor(typeChecker,
sourceFile, symbols)` invokes it. -/
def visitor (resolve : TsNode → ResolveResult) (node : TsNode) : List SimpleSymbol :=
  visitorF resolve [node]

/-- Visitor of the older revision, processed over a forest of sibling
subtrees that share the parent `parent`.  The source is

```
function visitor(typeChecker, node, symbols) {
  const symbol = typeChecker.getSymbolAtLocation(node);
  if (symbol && isNeedSematic(symbol.flags)) {
    symbols.push({ text, range, kind: symbol.flags, parentKind: node.parent.kind });
  }
  ts.forEachChild(node, (child) => { visitor(typeChecker, child, symbols); });
}
```

`node.parent.kind` faults with a `TypeError` when the node has no parent
(the root), which the surrounding code does not catch; the fault is modelled
by the `none` result. -/
def visitor1F (resolve : TsNode → Option Symbol) (parent : Option TsNode) :
    List TsNode → Option (List SimpleSymbol1)
  | [] => some []
  | TsNode.mk k p e cs :: rest =>
    let here? : Option (List SimpleSymbol1) :=
      match resolve (TsNode.mk k p e cs) with
      | some symbol =>
        if (isNeedSematic symbol.flags).isSome then
          match parent with
          | none => none
          | some par =>
              some [{ range := { start := p, endPos := e }, kind := symbol.flags,
                      text := symbol.name, parentKind := par.kind }]
        else some []
      | none => some []
    here?.bind
      (fun here =>
        (visitor1F resolve (some (TsNode.mk k p e cs)) cs).bind
          (fun sub =>
            (visitor1F resolve parent rest).map
              (fun restOut => here ++ sub ++ restOut)))

/-- The older revision's visitor applied to a single root node; the root has
no parent, exactly as `visitor(typeChecker, sourceFile, symbols)` runs it. -/
def visitor1 (resolve : TsNode → Option Symbol) (parent : Option TsNode) (node : TsNode) :
    Option (List SimpleSymbol1) :=
  visitor1F resolve parent [node]

/-- The `maxProperty` helper of `utils.ts`:

```
export function maxProperty(array, property) {
  let max = array[0][property];
  for (const item of array) { if (item[property] > max) { max = item[property]; } }
  return max;
}
```

The dynamic property access is modelled by an accessor function; on the
empty array `array[0]` is `undefined` and the property access throws a
`TypeError`, modelled by `none`. -/
def maxProperty {α : Type} (array : List α) (property : α → Nat) : Option Nat :=
  match array with
  | [] => none
  | a0 :: _ =>
    some (array.foldl (fun mx item => if property item > mx then property item else mx)
      (property a0))

/-- The `minProperty` helper of `utils.ts`, symmetric to `maxProperty`. -/
def minProperty {α : Type} (array : List α) (property : α → Nat) : Option Nat :=
  match array with
  | [] => none
  | a0 :: _ =>
    some (array.foldl (fun mn item => if property item < mn then property item else mn)
      (property a0))

/-- Configuration as `vscode.workspace.getConfiguration` exposes it: a map
from setting key to an optionally configured string value. -/
def Config : Type := String → Option String

/-- The host's `config.get(key, defaultValue)`: the configured value if any,
else the supplied default. -/
def configGet (config : Config) (key dflt : String) : String :=
  (config key).getD dflt

/-- JavaScript `value || defaultValue` on strings: the empty string is the
only falsy string, in which case the default is taken. -/
def jsOrDefault (value dflt : String) : String :=
  if value = "" then dflt else value

/-- A created `TextEditorDecorationType`: the options record passed to
`vscode.window.createTextEditorDecorationType`. `rangeBehavior` is always
`DecorationRangeBehavior.ClosedClosed` (numeric value 1). -/
structure DecorationType where
  rangeBehavior : Nat
  color : String
  fontWeight : String
  fontStyle : String
deriving DecidableEq, Repr

/-- The `makeDecorationType(color, bold, fontStyle)` helper. -/
def makeDecorationType (color : String) (bold : Bool) (fontStyle : String) : DecorationType :=
  { rangeBehavior := 1
    color := color
    fontWeight := if bold then "bold" else "normal"
    fontStyle := fontStyle }

/-- The `TextEditorDecoration` record: a created decoration type paired with
the offset range it decorates. -/
structure TextEditorDecoration where
  decoration : DecorationType
  range : OffsetRange
deriving DecidableEq, Repr

/-- The `makeDecoration(symbols)` function of the current `extension.ts`
(the older revision has the identical rule chain): one pass over the symbol
list; an if/else-if chain compares `symbol.kind` with strict equality against
the flag constants and pushes at most one decoration per symbol. -/
def makeDecoration (config : Config) (symbols : List SimpleSymbol) : List TextEditorDecoration :=
  symbols.flatMap (fun symbol =>
    if symbol.kind = semanticHighlightFlags.TypeParameter ∨
       symbol.kind = semanticHighlightFlags.TypeAlias then
      let color := jsOrDefault
        (configGet config "ts-highlighting.colors.typeParameter" "#d8cb9a") "#d8cb9a"
      [{ decoration := makeDecorationType color true "normal", range := symbol.range }]
    else if symbol.kind = semanticHighlightFlags.BlockScopedVariable ∨
            symbol.kind = semanticHighlightFlags.Type ∨
            symbol.kind = semanticHighlightFlags.Variable then
      let color := jsOrDefault
        (configGet config "ts-highlighting.colors.variable" "#b6b9ea") "#b6b9ea"
      [{ decoration := makeDecorationType color false "normal", range := symbol.range }]
    else if symbol.kind = semanticHighlightFlags.FunctionScopedVariable then
      let color := jsOrDefault
        (configGet config "ts-highlighting.colors.functionScopedVariable" "#eaacbf") "#eaacbf"
      [{ decoration := makeDecorationType color false "italic", range := symbol.range }]
    else if symbol.kind = semanticHighlightFlags.Enum ∨
            symbol.kind = semanticHighlightFlags.ConstEnum then
      let color := jsOrDefault
        (configGet config "ts-highlighting.colors.enums" "#77d1e5") "#77d1e5"
      [{ decoration := makeDecorationType color false "normal", range := symbol.range }]
    else if symbol.kind = semanticHighlightFlags.EnumMember then
      let color := jsOrDefault
        (configGet config "ts-highlighting.colors.enums" "#ebaea7") "#ebaea7"
      [{ decoration := makeDecorationType color false "normal", range := symbol.range }]
    else [])

/-- The `makeDecoration(symbols)` function of the older revision: identical
rule chain over its `SimpleSymbol` records (which carry `parentKind`; the
chain never reads it). -/
def makeDecoration1 (config : Config) (symbols : List SimpleSymbol1) : List TextEditorDecoration :=
  symbols.flatMap (fun symbol =>
    if symbol.kind = semanticHighlightFlags.TypeParameter ∨
       symbol.kind = semanticHighlightFlags.TypeAlias then
      let color := jsOrDefault
        (configGet config "ts-highlighting.colors.typeParameter" "#d8cb9a") "#d8cb9a"
      [{ decoration := makeDecorationType color true "normal", range := symbol.range }]
    else if symbol.kind = semanticHighlightFlags.BlockScopedVariable ∨
            symbol.kind = semanticHighlightFlags.Type ∨
            symbol.kind = semanticHighlightFlags.Variable then
      let color := jsOrDefault
        (configGet config "ts-highlighting.colors.variable" "#b6b9ea") "#b6b9ea"
      [{ decoration := makeDecorationType color false "normal", range := symbol.range }]
    else if symbol.kind = semanticHighlightFlags.FunctionScopedVariable then
      let color := jsOrDefault
        (configGet config "ts-highlighting.colors.functionScopedVariable" "#eaacbf") "#eaacbf"
      [{ decoration := makeDecorationType color false "italic", range := symbol.range }]
    else if symbol.kind = semanticHighlightFlags.Enum ∨
            symbol.kind = semanticHighlightFlags.ConstEnum then
      let color := jsOrDefault
        (configGet config "ts-highlighting.colors.enums" "#77d1e5") "#77d1e5"
      [{ decoration := makeDecorationType color false "normal", range := symbol.range }]
    else if symbol.kind = semanticHighlightFlags.EnumMember then
      let color := jsOrDefault
        (configGet config "ts-highlighting.colors.enums" "#ebaea7") "#ebaea7"
      [{ decoration := makeDecorationType color false "normal", range := symbol.range }]
    else [])

/-- A `ts.SourceFile` as the extension consumes it: the full text returned by
`getFullText()` and the root syntax node (whose children are the
`statements`). -/
structure SourceFile where
  fullText : String
  root : TsNode

/-- The `statements` property of a source file. -/
def SourceFile.statements (sf : SourceFile) : List TsNode :=
  sf.root.children

/-- A `vscode.TextDocument` as the extension consumes it: the URI rendered by
`uri.toString()`, the URI scheme, `fileName`, `languageId` and the full text
returned by `getText()`. -/
structure Document where
  uriString : String
  scheme : String
  fileName : String
  languageId : String
  text : String

/-- A `vscode.TextEditor`: the document it shows. -/
structure Editor where
  document : Document

/-- A `ts.TextSpan` as built by `ts.createTextSpan(start, length)`. -/
structure TextSpan where
  start : Nat
  length : Nat
deriving DecidableEq, Repr

/-- A `ts.TextChangeRange` as built by
`ts.createTextChangeRange(span, newLength)`. -/
structure TextChangeRange where
  span : TextSpan
  newLength : Nat
deriving DecidableEq, Repr

/-- `ts.createTextSpan`. -/
def createTextSpan (start length : Nat) : TextSpan :=
  { start := start, length := length }

/-- `ts.createTextChangeRange`. -/
def createTextChangeRange (span : TextSpan) (newLength : Nat) : TextChangeRange :=
  { span := span, newLength := newLength }

/-- A `ts.Program` reduced to what the handlers read from it: its type
checker (a resolver) and the result of `getSourceFile` for the one root file
the program was created over. -/
structure Program where
  typeChecker : TsNode → ResolveResult
  sourceFile : Option SourceFile

/-- Black-box TypeScript compiler services: `ts.updateSourceFile(oldFile,
newText, changeRange, aggressiveChecks)` and `ts.createProgram([fileName],
options)` (the compiler options are fixed at every call site and are not
modelled). -/
structure Env where
  updateSourceFile : SourceFile → String → TextChangeRange → Bool → SourceFile
  createProgram : String → Program

/-- Pointwise update of a string-keyed map, modelling `Map.set` (with a
`some` value) and `Map.delete` (with `none`). -/
def mapSet {β : Type} (m : String → Option β) (key : String) (value : Option β) :
    String → Option β :=
  fun x => if x = key then value else m x

/-- One buffered pending edit of the incremental revision: the start and end
offsets of the replaced range (`end` is rendered `endPos`). -/
structure TextChangeBufferItem where
  start : Nat
  endPos : Nat
deriving DecidableEq, Repr

/-- The mutable state captured by the `activate` closure of the incremental
`extension.ts` revision: the decoration cache, the source-file and
type-checker maps, and the pending text-change buffer, all keyed by the
document URI string. -/
structure ExtState where
  cachedDecorations : String → Option (List TextEditorDecoration)
  sourceFiles : String → Option SourceFile
  typeCheckers : String → Option (TsNode → ResolveResult)
  textChangeBuffer : String → Option (List TextChangeBufferItem)

/-- One call `textEditor.setDecorations(decoration, [range])` made against
the host renderer. -/
structure RenderCall where
  editorUri : String
  decoration : DecorationType
  range : OffsetRange
deriving DecidableEq, Repr

/-- The `setDecorations(textEditor, decorations)` helper: one host render
call per decoration in the list. -/
def setDecorationsCalls (textEditor : Editor) (decorations : List TextEditorDecoration) :
    List RenderCall :=
  decorations.map (fun d =>
    { editorUri := textEditor.document.uriString, decoration := d.decoration, range := d.range })

/-- Observable outcome of one `doIncrementalHighlight` run: the updated
source-file map and decoration cache, the render calls issued, and the
change range passed to `ts.updateSourceFile` (if that call was reached). -/
structure DoIncOut where
  sourceFiles : String → Option SourceFile
  cachedDecorations : String → Option (List TextEditorDecoration)
  renders : List RenderCall
  updateCall : Option TextChangeRange

/-- The `doIncrementalHighlight(editor, changesBuffer, document)` function of
the incremental revision.  `minProperty` / `maxProperty` fault on an empty
buffer (modelled by the `none` result); then the stored source file is
incrementally updated over a change range spanning the whole previous text,
the statement covering `[minStart, maxEnd]` is looked up, the visitor is run
over the whole updated tree, and — only when at least one symbol was
resolved and a visible editor shows the document — the decorations are built,
cached and rendered (the code calls `setDecorations(editor, ...)` with the
outer `editor` once per matching visible editor). -/
def doIncrementalHighlight (env : Env) (config : Config) (visibleTextEditors : List Editor)
    (editor : Editor) (changesBuffer : List TextChangeBufferItem) (document : Document)
    (typeCheckers : String → Option (TsNode → ResolveResult))
    (sourceFiles : String → Option SourceFile)
    (cachedDecorations : String → Option (List TextEditorDecoration)) : Option DoIncOut :=
  match minProperty changesBuffer (fun c => c.start),
        maxProperty changesBuffer (fun c => c.endPos) with
  | some minStart, some maxEnd =>
    let uriString := document.uriString
    let typeChecker := typeCheckers uriString
    match sourceFiles uriString with
    | some sourceFile =>
      let textChangeRange :=
        createTextChangeRange (createTextSpan 0 sourceFile.fullText.length) document.text.length
      let newSourceFile := env.updateSourceFile sourceFile document.text textChangeRange true
      let sourceFiles1 := mapSet sourceFiles uriString (some newSourceFile)
      let node := newSourceFile.statements.find?
        (fun child => decide (child.pos ≤ minStart) && decide (maxEnd ≤ child.endPos))
      match node, typeChecker with
      | some _, some checker =>
        let semanticSymbols := visitor checker newSourceFile.root
        if 0 < semanticSymbols.length then
          let matching := visibleTextEditors.filter
            (fun te => te.document.uriString == document.uriString)
          if matching.isEmpty then
            some { sourceFiles := sourceFiles1, cachedDecorations := cachedDecorations,
                   renders := [], updateCall := some textChangeRange }
          else
            let decorations := makeDecoration config semanticSymbols
            some { sourceFiles := sourceFiles1,
                   cachedDecorations := mapSet cachedDecorations uriString (some decorations),
                   renders := matching.flatMap (fun _ => setDecorationsCalls editor decorations),
                   updateCall := some textChangeRange }
        else
          some { sourceFiles := sourceFiles1, cachedDecorations := cachedDecorations,
                 renders := [], updateCall := some textChangeRange }
      | _, _ =>
        some { sourceFiles := sourceFiles1, cachedDecorations := cachedDecorations,
               renders := [], updateCall := some textChangeRange }
    | none =>
      some { sourceFiles := sourceFiles, cachedDecorations := cachedDecorations,
             renders := [], updateCall := none }
  | _, _ => none

/-- One entry of `contentChanges` after the host's line/column-to-offset
conversion (`document.offsetAt`, an external capability) has been applied:
the start and end offsets of the replaced range. -/
structure ContentChange where
  start : Nat
  endPos : Nat
deriving DecidableEq, Repr

/-- A `vscode.TextDocumentChangeEvent`: the document and its content
changes. -/
structure TextDocumentChangeEvent where
  document : Document
  contentChanges : List ContentChange

/-- The `maxTextChangeBufferLength` constant (flush threshold). -/
def maxTextChangeBufferLength : Nat := 20

/-- Observable outcome of one `handleTextDocumentChange` run: the updated
extension state, how many reanalyses (`doIncrementalHighlight` calls) were
triggered, the buffer argument of each such call, the render calls issued,
and the log lines written (only the baseline-loss error line is modelled;
purely diagnostic log lines are elided). -/
structure HandlerOut where
  state : ExtState
  reanalyses : Nat
  flushedBuffers : List (List TextChangeBufferItem)
  renders : List RenderCall
  logs : List String

/-- The `handleTextDocumentChange(e)` handler of the incremental revision:
non-file schemes are ignored; a document with no visible editor is ignored;
a document with no stored baseline source file logs an error and returns;
otherwise the event's changes are appended to the pending buffer, and when
an existing buffer grows to `maxTextChangeBufferLength` or beyond the whole
batch is handed to `doIncrementalHighlight` and the buffer entry is
deleted.  The overall `none` result models an uncaught JavaScript fault. -/
def handleTextDocumentChange (env : Env) (config : Config) (visibleTextEditors : List Editor)
    (e : TextDocumentChangeEvent) (st : ExtState) : Option HandlerOut :=
  if e.document.scheme ≠ "file" then
    some { state := st, reanalyses := 0, flushedBuffers := [], renders := [], logs := [] }
  else
    let document := e.document
    let urlString := document.uriString
    match visibleTextEditors.find? (fun ed => ed.document.uriString == urlString) with
    | none =>
      some { state := st, reanalyses := 0, flushedBuffers := [], renders := [], logs := [] }
    | some currentEditor =>
      match st.sourceFiles urlString with
      | none =>
        some { state := st, reanalyses := 0, flushedBuffers := [], renders := [],
               logs := ["[ERROR] - We lost document!"] }
      | some _ =>
        let changesBuffer : List TextChangeBufferItem :=
          e.contentChanges.map (fun change => { start := change.start, endPos := change.endPos })
        match st.textChangeBuffer urlString with
        | some existBuffer =>
          let newBuffer := existBuffer ++ changesBuffer
          if maxTextChangeBufferLength ≤ newBuffer.length then
            match doIncrementalHighlight env config visibleTextEditors currentEditor newBuffer
                document st.typeCheckers st.sourceFiles st.cachedDecorations with
            | none => none
            | some r =>
              some { state := { cachedDecorations := r.cachedDecorations,
                                sourceFiles := r.sourceFiles,
                                typeCheckers := st.typeCheckers,
                                textChangeBuffer := mapSet st.textChangeBuffer urlString none },
                     reanalyses := 1, flushedBuffers := [newBuffer], renders := r.renders,
                     logs := [] }
          else
            some { state := { st with
                              textChangeBuffer :=
                                mapSet st.textChangeBuffer urlString (some newBuffer) },
                   reanalyses := 0, flushedBuffers := [], renders := [], logs := [] }
        | none =>
          some { state := { st with
                            textChangeBuffer :=
                              mapSet st.textChangeBuffer urlString (some changesBuffer) },
                 reanalyses := 0, flushedBuffers := [], renders := [], logs := [] }

/-- Observable outcome of one `onDidChangeActiveTextEditor` run: the updated
extension state, the render calls issued, and how many times
`ts.createProgram` was invoked. -/
structure FocusOut where
  state : ExtState
  renders : List RenderCall
  programsCreated : Nat

/-- The `onDidChangeActiveTextEditor` handler of the incremental revision.
The language guard is the literal disjunction from the source, which lists
"typescriptreact" twice and omits "javascriptreact".  For a qualifying
language: a cached decoration list is replayed; otherwise a program is
created, the type checker is stored, the stored (or freshly parsed) source
file is stored, the visitor is run, and — when at least one symbol was
resolved and a visible editor shows the document — decorations are built,
cached and rendered on the focused editor. -/
def onDidChangeActiveTextEditor (env : Env) (config : Config)
    (visibleTextEditors : List Editor) (editorArg : Option Editor) (st : ExtState) : FocusOut :=
  match editorArg with
  | none => { state := st, renders := [], programsCreated := 0 }
  | some editor =>
    let document := editor.document
    if document.languageId = "typescript" ∨
       document.languageId = "typescriptreact" ∨
       document.languageId = "javascript" ∨
       document.languageId = "typescriptreact" then
      match st.cachedDecorations document.uriString with
      | some cachedDecoration =>
        { state := st, renders := setDecorationsCalls editor cachedDecoration,
          programsCreated := 0 }
      | none =>
        let program := env.createProgram document.fileName
        let typeChecker := program.typeChecker
        let typeCheckers1 := mapSet st.typeCheckers document.uriString (some typeChecker)
        let sourceFile :=
          match st.sourceFiles document.uriString with
          | some sf => some sf
          | none => program.sourceFile
        match sourceFile with
        | none =>
          { state := { st with typeCheckers := typeCheckers1 }, renders := [],
            programsCreated := 1 }
        | some sf =>
          let sourceFiles1 := mapSet st.sourceFiles document.uriString (some sf)
          let semanticSymbols := visitor typeChecker sf.root
          if 0 < semanticSymbols.length then
            let matching := visibleTextEditors.filter
              (fun te => te.document.uriString == document.uriString)
            if matching.isEmpty then
              { state := { st with typeCheckers := typeCheckers1, sourceFiles := sourceFiles1 },
                renders := [], programsCreated := 1 }
            else
              let decorations := makeDecoration config semanticSymbols
              let cached1 := mapSet st.cachedDecorations document.uriString (some decorations)
              { state := { st with typeCheckers := typeCheckers1, sourceFiles := sourceFiles1,
                                   cachedDecorations := cached1 },
                renders := matching.flatMap (fun _ => setDecorationsCalls editor decorations),
                programsCreated := 1 }
          else
            { state := { st with typeCheckers := typeCheckers1, sourceFiles := sourceFiles1 },
              renders := [], programsCreated := 1 }
    else { state := st, renders := [], programsCreated := 0 }

/-! Helper lemmas about the `utils.ts` fold loops. -/

/-- Characterization of the `maxProperty` loop body folded over a list: the
result is at least the seed, bounds every listed property value from above,
and is either the seed or a listed property value. -/
theorem foldlMaxLoop_spec {α : Type} (p : α → Nat) :
    ∀ (l : List α) (init : Nat),
      init ≤ l.foldl (fun mx item => if p item > mx then p item else mx) init ∧
      (∀ a ∈ l, p a ≤ l.foldl (fun mx item => if p item > mx then p item else mx) init) ∧
      (l.foldl (fun mx item => if p item > mx then p item else mx) init = init ∨
        ∃ a ∈ l, p a = l.foldl (fun mx item => if p item > mx then p item else mx) init) := by
  intro l
  induction l with
  | nil => intro init; simp
  | cons b tl ih =>
    intro init
    have hstep : (b :: tl).foldl (fun mx item => if p item > mx then p item else mx) init =
        tl.foldl (fun mx item => if p item > mx then p item else mx)
          (if p b > init then p b else init) := by
      simp [List.foldl_cons]
    obtain ⟨h1, h2, h3⟩ := ih (if p b > init then p b else init)
    refine ⟨?_, ?_, ?_⟩
    · rw [hstep]
      refine le_trans ?_ h1
      by_cases hb : p b > init
      · simp [hb]; omega
      · simp [hb]
    · intro a ha
      rw [hstep]
      rcases List.mem_cons.mp ha with rfl | ha2
      · refine le_trans ?_ h1
        by_cases hb : p a > init
        · simp [hb]
        · simp [hb]; omega
      · exact h2 a ha2
    · rw [hstep]
      rcases h3 with h3 | ⟨a, ha, hpa⟩
      · by_cases hb : p b > init
        · right
          exact ⟨b, List.mem_cons_self b tl, by rw [h3]; simp [hb]⟩
        · left
          rw [h3]; simp [hb]
      · exact Or.inr ⟨a, List.mem_cons_of_mem b ha, hpa⟩

/-- Characterization of the `minProperty` loop body folded over a list,
symmetric to `foldlMaxLoop_spec`. -/
theorem foldlMinLoop_spec {α : Type} (p : α → Nat) :
    ∀ (l : List α) (init : Nat),
      l.foldl (fun mn item => if p item < mn then p item else mn) init ≤ init ∧
      (∀ a ∈ l, l.foldl (fun mn item => if p item < mn then p item else mn) init ≤ p a) ∧
      (l.foldl (fun mn item => if p item < mn then p item else mn) init = init ∨
        ∃ a ∈ l, p a = l.foldl (fun mn item => if p item < mn then p item else mn) init) := by
  intro l
  induction l with
  | nil => intro init; simp
  | cons b tl ih =>
    intro init
    have hstep : (b :: tl).foldl (fun mn item => if p item < mn then p item else mn) init =
        tl.foldl (fun mn item => if p item < mn then p item else mn)
          (if p b < init then p b else init) := by
      simp [List.foldl_cons]
    obtain ⟨h1, h2, h3⟩ := ih (if p b < init then p b else init)
    refine ⟨?_, ?_, ?_⟩
    · rw [hstep]
      refine le_trans h1 ?_
      by_cases hb : p b < init
      · simp [hb]; omega
      · simp [hb]
    · intro a ha
      rw [hstep]
      rcases List.mem_cons.mp ha with rfl | ha2
      · refine le_trans h1 ?_
        by_cases hb : p a < init
        · simp [hb]
        · simp [hb]; omega
      · exact h2 a ha2
    · rw [hstep]
      rcases h3 with h3 | ⟨a, ha, hpa⟩
      · by_cases hb : p b < init
        · right
          exact ⟨b, List.mem_cons_self b tl, by rw [h3]; simp [hb]⟩
        · left
          rw [h3]; simp [hb]
      · exact Or.inr ⟨a, List.mem_cons_of_mem b ha, hpa⟩

/-- On a non-empty array, `maxProperty` returns a listed property value that
bounds every listed property value from above. -/
theorem maxProperty_spec {α : Type} (array : List α) (property : α → Nat) (h : array ≠ []) :
    ∃ m, maxProperty array property = some m ∧
      (∃ a ∈ array, property a = m) ∧ ∀ a ∈ array, property a ≤ m := by
  obtain ⟨a0, tl, rfl⟩ := List.exists_cons_of_ne_nil h
  obtain ⟨h1, h2, h3⟩ := foldlMaxLoop_spec property (a0 :: tl) (property a0)
  refine ⟨_, rfl, ?_, h2⟩
  rcases h3 with h3 | h3
  · exact ⟨a0, List.mem_cons_self a0 tl, h3.symm⟩
  · exact h3

/-- On a non-empty array, `minProperty` returns a listed property value that
bounds every listed property value from below. -/
theorem minProperty_spec {α : Type} (array : List α) (property : α → Nat) (h : array ≠ []) :
    ∃ m, minProperty array property = some m ∧
      (∃ a ∈ array, property a = m) ∧ ∀ a ∈ array, m ≤ property a := by
  obtain ⟨a0, tl, rfl⟩ := List.exists_cons_of_ne_nil h
  obtain ⟨h1, h2, h3⟩ := foldlMinLoop_spec property (a0 :: tl) (property a0)
  refine ⟨_, rfl, ?_, h2⟩
  rcases h3 with h3 | h3
  · exact ⟨a0, List.mem_cons_self a0 tl, h3.symm⟩
  · exact h3

/-- The concrete three-edit batch of the covering-range test vector: starts
5, 40, 12 and ends 8, 45, 20. -/
def coveringBatch : List TextChangeBufferItem :=
  [{ start := 5, endPos := 8 }, { start := 40, endPos := 45 }, { start := 12, endPos := 20 }]

/-- C3: for every non-empty batch of pending edits, the covering range
computed in `doIncrementalHighlight` — `minProperty(changesBuffer, "start")`
and `maxProperty(changesBuffer, "end")` — is exactly the minimum of the
edits' start offsets and the maximum of the edits' end offsets. -/
theorem coveringRange_min_max (changesBuffer : List TextChangeBufferItem)
    (h : changesBuffer ≠ []) :
    (∃ m, minProperty changesBuffer (fun c => c.start) = some m ∧
      (∃ c ∈ changesBuffer, c.start = m) ∧ ∀ c ∈ changesBuffer, m ≤ c.start) ∧
    (∃ M, maxProperty changesBuffer (fun c => c.endPos) = some M ∧
      (∃ c ∈ changesBuffer, c.endPos = M) ∧ ∀ c ∈ changesBuffer, c.endPos ≤ M) :=
  ⟨minProperty_spec changesBuffer (fun c => c.start) h,
   maxProperty_spec changesBuffer (fun c => c.endPos) h⟩

/-- Witness for C3 at the batch with starts 5, 40, 12 and ends 8, 45, 20:
the computed covering range is exactly 5 to 45. -/
theorem coveringRange_min_max_witness :
    minProperty coveringBatch (fun c => c.start) = some 5 ∧
    maxProperty coveringBatch (fun c => c.endPos) = some 45 ∧
    ((∃ m, minProperty coveringBatch (fun c => c.start) = some m ∧
      (∃ c ∈ coveringBatch, c.start = m) ∧ ∀ c ∈ coveringBatch, m ≤ c.start) ∧
    (∃ M, maxProperty coveringBatch (fun c => c.endPos) = some M ∧
      (∃ c ∈ coveringBatch, c.endPos = M) ∧ ∀ c ∈ coveringBatch, c.endPos ≤ M)) :=
  ⟨by decide, by decide, coveringRange_min_max coveringBatch (by decide)⟩

/-- The empty configuration: no color setting is configured, every lookup
falls back to the documented default. -/
def cfg0 : Config := fun _ => none

/-- C1 counterexample: the flag `TypeParameter ||| Variable` (262147) has
both the `TypeParameter` bit and the `Variable` bits set — it satisfies the
bitmask reading of rule 1's predicate and of rule 2's predicate — yet
`makeDecoration` assigns it no category at all (the rule chain compares with
strict equality, so the combined flag matches no rule), rather than rule 1's
`TypeParameter` category as the claim states. -/
theorem ruleChain_counterexample :
    (semanticHighlightFlags.TypeParameter ||| semanticHighlightFlags.Variable) &&&
        semanticHighlightFlags.TypeParameter ≠ 0 ∧
    (semanticHighlightFlags.TypeParameter ||| semanticHighlightFlags.Variable) &&&
        semanticHighlightFlags.Variable ≠ 0 ∧
    makeDecoration cfg0
      [{ range := { start := 10, endPos := 11 },
         kind := semanticHighlightFlags.TypeParameter ||| semanticHighlightFlags.Variable,
         text := "x" }] = [] := by
  refine ⟨by decide, by decide, ?_⟩
  decide

/-- C1 amended: the rule chain tests the flag by strict equality, so a flag
that is the bitwise OR of rule-1 and rule-2 constants matches neither rule
and maps to no category; a flag exactly equal to `TypeParameter` or
`TypeAlias` is always assigned rule 1's bold `TypeParameter` styling (never
rule 2's), the chain being evaluated top to bottom. -/
theorem ruleChain_amended :
    (∀ (config : Config) (r : OffsetRange) (t : String) (flag : Nat),
      flag = semanticHighlightFlags.TypeParameter ∨ flag = semanticHighlightFlags.TypeAlias →
      makeDecoration config [{ range := r, kind := flag, text := t }] =
        [{ decoration := makeDecorationType
             (jsOrDefault (configGet config "ts-highlighting.colors.typeParameter" "#d8cb9a")
               "#d8cb9a") true "normal",
           range := r }]) ∧
    (∀ (config : Config) (r : OffsetRange) (t : String),
      makeDecoration config
        [{ range := r,
           kind := semanticHighlightFlags.TypeParameter ||| semanticHighlightFlags.Variable,
           text := t }] = []) := by
  constructor
  · intro config r t flag h
    rcases h with rfl | rfl
    · simp [makeDecoration]
    · simp [makeDecoration]
  · intro config r t
    simp [makeDecoration, semanticHighlightFlags.TypeParameter,
      semanticHighlightFlags.TypeAlias, semanticHighlightFlags.BlockScopedVariable,
      semanticHighlightFlags.«Type», semanticHighlightFlags.Variable,
      semanticHighlightFlags.FunctionScopedVariable, semanticHighlightFlags.Enum,
      semanticHighlightFlags.ConstEnum, semanticHighlightFlags.EnumMember]

/-- Witness for C1's amended theorem at the flag `TypeParameter` and the
empty configuration. -/
theorem ruleChain_witness :
    (semanticHighlightFlags.TypeParameter = semanticHighlightFlags.TypeParameter ∨
      semanticHighlightFlags.TypeParameter = semanticHighlightFlags.TypeAlias) ∧
    makeDecoration cfg0
      [{ range := { start := 10, endPos := 11 },
         kind := semanticHighlightFlags.TypeParameter, text := "x" }] =
      [{ decoration := makeDecorationType
           (jsOrDefault (configGet cfg0 "ts-highlighting.colors.typeParameter" "#d8cb9a")
             "#d8cb9a") true "normal",
         range := { start := 10, endPos := 11 } }] :=
  ⟨Or.inl rfl,
   ruleChain_amended.1 cfg0 { start := 10, endPos := 11 } "x"
     semanticHighlightFlags.TypeParameter (Or.inl rfl)⟩

/-! Helper lemmas about the incremental revision's visitor. -/

/-- The visitor's own contribution for one node: the pushed record when the
resolver finds a symbol there, nothing otherwise. -/
def ownEntry (resolve : TsNode → ResolveResult) (t : TsNode) : List SimpleSymbol :=
  match resolve t with
  | .throws => []
  | .missing => []
  | .found name flags =>
      [{ range := { start := t.pos, endPos := t.endPos }, kind := flags, text := name }]

/-- The visitor distributes over concatenation of sibling forests. -/
theorem visitorF_append (resolve : TsNode → ResolveResult) :
    ∀ (l1 l2 : List TsNode),
      visitorF resolve (l1 ++ l2) = visitorF resolve l1 ++ visitorF resolve l2 := by
  intro l1
  induction l1 with
  | nil => intro l2; simp [visitorF]
  | cons t tl ih =>
    intro l2
    cases t with
    | mk k p e cs => simp [visitorF, ih, List.append_assoc]

/-- A node at which the resolution call throws contributes nothing at all:
the catch region encloses the recursion into the children, so the whole
subtree is dropped. -/
theorem visitor_of_throws (resolve : TsNode → ResolveResult) (t : TsNode)
    (h : resolve t = .throws) : visitor resolve t = [] := by
  cases t with
  | mk k p e cs => simp [visitor, visitorF, h]

/-- C4 counterexample: in the concrete tree below, resolution throws at the
middle node `nodeA4` while its child `nodeB4` is resolvable (flag 2), yet
the classification pass returns the empty list — the resolvable descendant
of the throwing node is *not* classified, refuting the claim that traversal
continues with the throwing node's children and that the result contains
every other resolvable node. -/
def nodeB4 : TsNode := .mk 0 2 3 []

/-- Middle node of the C4 counterexample tree; resolution throws here. -/
def nodeA4 : TsNode := .mk 0 1 4 [nodeB4]

/-- Root of the C4 counterexample tree. -/
def rootC4 : TsNode := .mk 0 0 5 [nodeA4]

/-- Resolver of the C4 counterexample: throws at offset 1 (`nodeA4`),
resolves offset 2 (`nodeB4`) to a `BlockScopedVariable` symbol, and misses
everywhere else. -/
def resC4 : TsNode → ResolveResult := fun n =>
  if n.pos = 1 then .throws else if n.pos = 2 then .found "b" 2 else .missing

/-- C4 counterexample theorem: `nodeB4` is resolvable, but the pass over
`rootC4` classifies nothing, because the exception at `nodeA4` discards the
whole subtree including `nodeB4`. -/
theorem visitorCatch_counterexample :
    resC4 nodeB4 = .found "b" 2 ∧ visitor resC4 rootC4 = [] := by
  refine ⟨by decide, ?_⟩
  simp [visitor, visitorF, resC4, rootC4, nodeA4, nodeB4, TsNode.pos]

/-- C4 amended: if resolving throws at a child node, the pass skips that
child together with its entire subtree (its children are not visited), but
it does continue with the remaining siblings and completes: the result is
the parent's own contribution followed by the classifications of the
siblings before and after the throwing child, and the exception is never
fatal to the pass. -/
theorem visitorCatch_amended (resolve : TsNode → ResolveResult) (k p e : Nat)
    (pre : List TsNode) (bad : TsNode) (post : List TsNode)
    (hparent : resolve (TsNode.mk k p e (pre ++ bad :: post)) ≠ .throws)
    (hbad : resolve bad = .throws) :
    visitor resolve (TsNode.mk k p e (pre ++ bad :: post)) =
      ownEntry resolve (TsNode.mk k p e (pre ++ bad :: post)) ++
        visitorF resolve pre ++ visitorF resolve post := by
  have hb : visitorF resolve [bad] = [] := visitor_of_throws resolve bad hbad
  have hsplit : visitorF resolve (pre ++ bad :: post) =
      visitorF resolve pre ++ visitorF resolve post := by
    have hdec : pre ++ bad :: post = pre ++ ([bad] ++ post) := by simp
    rw [hdec, visitorF_append, visitorF_append, hb]
    simp
  cases hres : resolve (TsNode.mk k p e (pre ++ bad :: post)) with
  | throws => exact absurd hres hparent
  | missing => simp [visitor, visitorF, hres, ownEntry, hsplit]
  | found name flags =>
    simp [visitor, visitorF, hres, ownEntry, hsplit, TsNode.pos, TsNode.endPos]

/-- Witness for C4's amended theorem on a concrete tree: a parent whose
resolution misses, a throwing child `nodeA4`, and a later resolvable sibling
`nodeB4`. -/
theorem visitorCatch_witness :
    resC4 (TsNode.mk 0 0 5 ([] ++ nodeA4 :: [nodeB4])) ≠ ResolveResult.throws ∧
    resC4 nodeA4 = ResolveResult.throws ∧
    visitor resC4 (TsNode.mk 0 0 5 ([] ++ nodeA4 :: [nodeB4])) =
      ownEntry resC4 (TsNode.mk 0 0 5 ([] ++ nodeA4 :: [nodeB4])) ++
        visitorF resC4 [] ++ visitorF resC4 [nodeB4] :=
  ⟨by decide, by decide,
   visitorCatch_amended resC4 0 0 5 [] nodeA4 [nodeB4] (by decide) (by decide)⟩

/-- On a non-empty buffer `doIncrementalHighlight` never faults: the only
fault source is the unguarded `array[0]` access of `minProperty` /
`maxProperty`, which a non-empty buffer avoids. -/
theorem doIncrementalHighlight_isSome (env : Env) (config : Config)
    (visibleTextEditors : List Editor) (editor : Editor)
    (changesBuffer : List TextChangeBufferItem) (document : Document)
    (typeCheckers : String → Option (TsNode → ResolveResult))
    (sourceFiles : String → Option SourceFile)
    (cachedDecorations : String → Option (List TextEditorDecoration))
    (h : changesBuffer ≠ []) :
    (doIncrementalHighlight env config visibleTextEditors editor changesBuffer document
      typeCheckers sourceFiles cachedDecorations).isSome := by
  obtain ⟨m, hm, _, _⟩ := minProperty_spec changesBuffer (fun c => c.start) h
  obtain ⟨M, hM, _, _⟩ := maxProperty_spec changesBuffer (fun c => c.endPos) h
  unfold doIncrementalHighlight
  rw [hm, hM]
  dsimp only
  rcases hh : sourceFiles document.uriString with _ | sf
  · simp [hh]
  · simp only [hh]
    repeat' split
    all_goals simp

/-- C5: a change event on a file-scheme document that is shown in some
visible editor but has no stored baseline source file logs the baseline-loss
error and returns: the state (pending-edit buffer, all caches) is returned
unmodified, no reanalysis is triggered, nothing is rendered, and the handler
does not fault. -/
theorem missingBaseline_theorem (env : Env) (config : Config)
    (visibleTextEditors : List Editor) (e : TextDocumentChangeEvent) (st : ExtState)
    (ed : Editor)
    (hscheme : e.document.scheme = "file")
    (hed : visibleTextEditors.find?
      (fun x => x.document.uriString == e.document.uriString) = some ed)
    (hsf : st.sourceFiles e.document.uriString = none) :
    handleTextDocumentChange env config visibleTextEditors e st =
      some { state := st, reanalyses := 0, flushedBuffers := [], renders := [],
             logs := ["[ERROR] - We lost document!"] } := by
  unfold handleTextDocumentChange
  simp [hscheme, hed, hsf]

/-- The sample document of the concrete witnesses: a file-scheme TypeScript
document. -/
def doc0 : Document :=
  { uriString := "file:///a.ts", scheme := "file", fileName := "/a.ts",
    languageId := "typescript", text := "let x = 1" }

/-- An editor showing `doc0`. -/
def ed0 : Editor := { document := doc0 }

/-- An inert compiler-service environment for the concrete witnesses:
`updateSourceFile` returns the old file and `createProgram` yields a program
with a resolver that always misses and no source file. -/
def env0 : Env :=
  { updateSourceFile := fun sf _ _ _ => sf,
    createProgram := fun _ =>
      { typeChecker := fun _ => ResolveResult.missing, sourceFile := none } }

/-- The empty extension state: no caches, no baselines, no pending edits. -/
def st0 : ExtState :=
  { cachedDecorations := fun _ => none, sourceFiles := fun _ => none,
    typeCheckers := fun _ => none, textChangeBuffer := fun _ => none }

/-- Witness for C5 at a concrete event for `doc0` with the empty state
(hence no stored baseline). -/
theorem missingBaseline_witness :
    doc0.scheme = "file" ∧
    handleTextDocumentChange env0 cfg0 [ed0]
      { document := doc0, contentChanges := [{ start := 0, endPos := 1 }] } st0 =
      some { state := st0, reanalyses := 0, flushedBuffers := [], renders := [],
             logs := ["[ERROR] - We lost document!"] } :=
  ⟨rfl,
   missingBaseline_theorem env0 cfg0 [ed0]
     { document := doc0, contentChanges := [{ start := 0, endPos := 1 }] } st0 ed0
     rfl rfl rfl⟩

/-- C2: for a file-scheme document shown in a visible editor and holding a
baseline source file, a change event carrying one content change behaves as
follows.  If no buffer entry exists yet, the edit only creates a one-element
buffer and triggers nothing.  If a buffer of fewer than 19 edits exists, the
edit is appended and triggers nothing.  If exactly 19 edits are buffered —
so this edit brings the buffered count to `maxTextChangeBufferLength` (20) —
exactly one reanalysis is triggered and the document's pending-edit buffer
entry is deleted (empty) immediately afterwards. -/
theorem batchThreshold_theorem (env : Env) (config : Config)
    (visibleTextEditors : List Editor) (e : TextDocumentChangeEvent) (st : ExtState)
    (ed : Editor)
    (hscheme : e.document.scheme = "file")
    (hed : visibleTextEditors.find?
      (fun x => x.document.uriString == e.document.uriString) = some ed)
    (hsf : (st.sourceFiles e.document.uriString).isSome)
    (hone : e.contentChanges.length = 1) :
    ∃ out, handleTextDocumentChange env config visibleTextEditors e st = some out ∧
      (st.textChangeBuffer e.document.uriString = none →
        out.reanalyses = 0 ∧
        ∃ buf, out.state.textChangeBuffer e.document.uriString = some buf ∧
          buf.length = 1) ∧
      (∀ l, st.textChangeBuffer e.document.uriString = some l →
        l.length + 1 < maxTextChangeBufferLength →
        out.reanalyses = 0 ∧
        ∃ buf, out.state.textChangeBuffer e.document.uriString = some buf ∧
          buf.length = l.length + 1) ∧
      (∀ l, st.textChangeBuffer e.document.uriString = some l →
        l.length + 1 = maxTextChangeBufferLength →
        out.reanalyses = 1 ∧ out.state.textChangeBuffer e.document.uriString = none) := by
  obtain ⟨sf, hsf2⟩ := Option.isSome_iff_exists.mp hsf
  unfold handleTextDocumentChange
  rw [if_neg (by simp [hscheme])]
  dsimp only
  rw [hed, hsf2]
  dsimp only
  cases hbuf : st.textChangeBuffer e.document.uriString with
  | none =>
    refine ⟨_, rfl, ?_, ?_, ?_⟩
    · intro _
      exact ⟨rfl, e.contentChanges.map
          (fun change => { start := change.start, endPos := change.endPos }),
        by simp [mapSet], by simp [hone]⟩
    · intro l hl
      simp at hl
    · intro l hl
      simp at hl
  | some l0 =>
    have hlen : (l0 ++ e.contentChanges.map
        (fun change => ({ start := change.start, endPos := change.endPos } :
          TextChangeBufferItem))).length = l0.length + 1 := by
      simp [hone]
    dsimp only
    split
    · rename_i hcond
      have hnonempty : (l0 ++ e.contentChanges.map
          (fun change => ({ start := change.start, endPos := change.endPos } :
            TextChangeBufferItem))) ≠ [] := by
        intro hempty
        rw [hempty] at hlen
        simp at hlen
      obtain ⟨r, hr⟩ := Option.isSome_iff_exists.mp
        (doIncrementalHighlight_isSome env config visibleTextEditors ed _ e.document
          st.typeCheckers st.sourceFiles st.cachedDecorations hnonempty)
      rw [hr]
      refine ⟨_, rfl, ?_, ?_, ?_⟩
      · intro hb; simp at hb
      · intro l hl hsmall
        have heq : l0 = l := by injection hl
        subst heq
        rw [hlen] at hcond
        omega
      · intro l hl _
        exact ⟨rfl, by simp [mapSet]⟩
    · rename_i hcond
      refine ⟨_, rfl, ?_, ?_, ?_⟩
      · intro hb; simp at hb
      · intro l hl _
        have heq : l0 = l := by injection hl
        subst heq
        exact ⟨rfl, l0 ++ e.contentChanges.map
            (fun change => { start := change.start, endPos := change.endPos }),
          by simp [mapSet], hlen⟩
      · intro l hl hfull
        have heq : l0 = l := by injection hl
        subst heq
        rw [hlen] at hcond
        omega

/-- The baseline source file of the concrete witnesses. -/
def sf0 : SourceFile := { fullText := "let x = 1", root := .mk 0 0 9 [] }

/-- A 19-element pending-edit buffer. -/
def buf19 : List TextChangeBufferItem := List.replicate 19 { start := 0, endPos := 1 }

/-- Extension state holding a baseline for `doc0` and 19 buffered edits. -/
def st19 : ExtState :=
  { cachedDecorations := fun _ => none,
    sourceFiles := fun u => if u = "file:///a.ts" then some sf0 else none,
    typeCheckers := fun _ => none,
    textChangeBuffer := fun u => if u = "file:///a.ts" then some buf19 else none }

/-- Witness for C2: from 19 buffered edits, the next single-change event —
the 20th edit — flushes. -/
theorem batchThreshold_witness :
    doc0.scheme = "file" ∧
    (st19.sourceFiles doc0.uriString).isSome ∧
    ∃ out, handleTextDocumentChange env0 cfg0 [ed0]
        { document := doc0, contentChanges := [{ start := 3, endPos := 4 }] } st19 =
        some out ∧
      (st19.textChangeBuffer doc0.uriString = none →
        out.reanalyses = 0 ∧
        ∃ buf, out.state.textChangeBuffer doc0.uriString = some buf ∧ buf.length = 1) ∧
      (∀ l, st19.textChangeBuffer doc0.uriString = some l →
        l.length + 1 < maxTextChangeBufferLength →
        out.reanalyses = 0 ∧
        ∃ buf, out.state.textChangeBuffer doc0.uriString = some buf ∧
          buf.length = l.length + 1) ∧
      (∀ l, st19.textChangeBuffer doc0.uriString = some l →
        l.length + 1 = maxTextChangeBufferLength →
        out.reanalyses = 1 ∧ out.state.textChangeBuffer doc0.uriString = none) :=
  ⟨rfl, by decide,
   batchThreshold_theorem env0 cfg0 [ed0]
     { document := doc0, contentChanges := [{ start := 3, endPos := 4 }] } st19 ed0
     rfl rfl (by decide) rfl⟩

/-- On a non-empty buffer `doIncrementalHighlight` does not fault (negative
form of `doIncrementalHighlight_isSome`, convenient for contradictions). -/
theorem doIncrementalHighlight_ne_none (env : Env) (config : Config)
    (visibleTextEditors : List Editor) (editor : Editor)
    (changesBuffer : List TextChangeBufferItem) (document : Document)
    (typeCheckers : String → Option (TsNode → ResolveResult))
    (sourceFiles : String → Option SourceFile)
    (cachedDecorations : String → Option (List TextEditorDecoration))
    (h : changesBuffer ≠ []) :
    doIncrementalHighlight env config visibleTextEditors editor changesBuffer document
      typeCheckers sourceFiles cachedDecorations ≠ none := by
  intro hnone
  have hs := doIncrementalHighlight_isSome env config visibleTextEditors editor changesBuffer
    document typeCheckers sourceFiles cachedDecorations h
  rw [hnone] at hs
  simp at hs

/-- The change handler never faults: every branch returns a value, and the
one internal fault source (`minProperty` / `maxProperty` on an empty batch)
sits behind the length-threshold guard, which guarantees a non-empty batch. -/
theorem handleTextDocumentChange_total (env : Env) (config : Config)
    (visibleTextEditors : List Editor) (e : TextDocumentChangeEvent) (st : ExtState) :
    (handleTextDocumentChange env config visibleTextEditors e st).isSome := by
  unfold handleTextDocumentChange
  split
  · simp
  · dsimp only
    split
    · simp
    · split
      · simp
      · try dsimp only
        split
        · try dsimp only
          split
          · rename_i existBuffer hbufeq hcond
            split
            · rename_i heq
              exfalso
              have hne : (existBuffer ++ e.contentChanges.map
                  (fun change => ({ start := change.start, endPos := change.endPos } :
                    TextChangeBufferItem))) ≠ [] := by
                intro hempty
                rw [hempty] at hcond
                simp [maxTextChangeBufferLength] at hcond
              exact doIncrementalHighlight_ne_none env config visibleTextEditors _ _
                e.document st.typeCheckers st.sourceFiles st.cachedDecorations hne heq
            · simp
          · simp
        · simp

/-- Every buffer a change event hands to `doIncrementalHighlight` has at
least `maxTextChangeBufferLength` elements: the flush fires only when the
concatenated buffer reaches the threshold. -/
theorem handleTextDocumentChange_flushedBuffers (env : Env) (config : Config)
    (visibleTextEditors : List Editor) (e : TextDocumentChangeEvent) (st : ExtState)
    (out : HandlerOut)
    (h : handleTextDocumentChange env config visibleTextEditors e st = some out) :
    ∀ fb ∈ out.flushedBuffers, maxTextChangeBufferLength ≤ fb.length := by
  unfold handleTextDocumentChange at h
  split at h
  · injection h with h2; subst h2; simp
  · dsimp only at h
    split at h
    · injection h with h2; subst h2; simp
    · split at h
      · injection h with h2; subst h2; simp
      · try dsimp only at h
        split at h
        · try dsimp only at h
          split at h
          · rename_i existBuffer hbufeq hcond
            split at h
            · cases h
            · injection h with h2
              subst h2
              intro fb hfb
              simp at hfb
              subst hfb
              exact hcond
          · injection h with h2; subst h2; simp
        · injection h with h2; subst h2; simp

/-- C9: the `utils.ts` property folds.  On the empty array both return the
fault marker (`array[0][property]` faults).  On any non-empty array
`minProperty` / `maxProperty` return the minimum / maximum of the property
over the elements.  The change handler never faults, because every batch it
hands to `doIncrementalHighlight` — the only `minProperty` / `maxProperty`
call site of the incremental revision — has at least the threshold's 20
elements, hence is non-empty. -/
theorem propertyFold_theorem :
    (∀ (α : Type) (property : α → Nat),
      minProperty ([] : List α) property = none ∧
      maxProperty ([] : List α) property = none) ∧
    (∀ (α : Type) (array : List α) (property : α → Nat), array ≠ [] →
      (∃ m, minProperty array property = some m ∧
        (∃ a ∈ array, property a = m) ∧ ∀ a ∈ array, m ≤ property a) ∧
      (∃ M, maxProperty array property = some M ∧
        (∃ a ∈ array, property a = M) ∧ ∀ a ∈ array, property a ≤ M)) ∧
    (∀ (env : Env) (config : Config) (visibleTextEditors : List Editor)
        (e : TextDocumentChangeEvent) (st : ExtState),
      (handleTextDocumentChange env config visibleTextEditors e st).isSome) ∧
    (∀ (env : Env) (config : Config) (visibleTextEditors : List Editor)
        (e : TextDocumentChangeEvent) (st : ExtState) (out : HandlerOut),
      handleTextDocumentChange env config visibleTextEditors e st = some out →
      ∀ fb ∈ out.flushedBuffers, maxTextChangeBufferLength ≤ fb.length) :=
  ⟨fun _ _ => ⟨rfl, rfl⟩,
   fun _ array property h => ⟨minProperty_spec array property h, maxProperty_spec array property h⟩,
   handleTextDocumentChange_total,
   handleTextDocumentChange_flushedBuffers⟩

/-- The 20th-edit change event used by the C9 witness. -/
def ev20 : TextDocumentChangeEvent :=
  { document := doc0, contentChanges := [{ start := 3, endPos := 4 }] }

/-- Witness for C9: the property folds evaluated on the non-empty concrete
covering batch, and the flushed-buffer bound at a concrete 20th-edit run. -/
theorem propertyFold_witness :
    ((∃ m, minProperty coveringBatch (fun c => c.start) = some m ∧
      (∃ a ∈ coveringBatch, a.start = m) ∧ ∀ a ∈ coveringBatch, m ≤ a.start) ∧
     (∃ M, maxProperty coveringBatch (fun c => c.start) = some M ∧
      (∃ a ∈ coveringBatch, a.start = M) ∧ ∀ a ∈ coveringBatch, a.start ≤ M)) ∧
    (∀ fb ∈ ((handleTextDocumentChange env0 cfg0 [ed0] ev20 st19).getD
        { state := st0, reanalyses := 0, flushedBuffers := [], renders := [],
          logs := [] }).flushedBuffers,
      maxTextChangeBufferLength ≤ fb.length) :=
  ⟨propertyFold_theorem.2.1 TextChangeBufferItem coveringBatch (fun c => c.start) (by decide),
   propertyFold_theorem.2.2.2 env0 cfg0 [ed0] ev20 st19 _ rfl⟩

/-- Invariant of the older revision's visitor: every record it ever pushes
has passed the `isNeedSematic` allow-list membership test on the resolved
symbol's flags, so a symbol whose flag value is not in the flag table is
never a classification candidate. -/
theorem visitor1F_allowList (resolve : TsNode → Option Symbol) :
    ∀ (parent : Option TsNode) (l : List TsNode) (out : List SimpleSymbol1),
      visitor1F resolve parent l = some out →
      ∀ s ∈ out, (isNeedSematic s.kind).isSome := by
  intro parent l
  induction parent, l using visitor1F.induct resolve with
  | case1 parent =>
    intro out h s hs
    simp [visitor1F] at h
    subst h
    simp at hs
  | case2 parent k p e cs rest ih1 ih2 =>
    intro out h s hs
    rw [visitor1F] at h
    try dsimp only at h
    cases hres : resolve (TsNode.mk k p e cs) with
    | none =>
      rw [hres] at h
      simp only [Option.bind_eq_some, Option.map_eq_some'] at h
      obtain ⟨here, hhere, sub, hsub, r, hr, hout⟩ := h
      injection hhere with hhere2
      subst hhere2
      subst hout
      simp at hs
      rcases hs with hs | hs
      · exact ih1 sub hsub s hs
      · exact ih2 r hr s hs
    | some symbol =>
      rw [hres] at h
      by_cases hg : (isNeedSematic symbol.flags).isSome
      · simp only [hg, if_true] at h
        cases parent with
        | none => simp at h
        | some par =>
          simp only [Option.bind_eq_some, Option.map_eq_some'] at h
          obtain ⟨here, hhere, sub, hsub, r, hr, hout⟩ := h
          injection hhere with hhere2
          subst hhere2
          subst hout
          simp at hs
          rcases hs with hs | hs | hs
          · rw [hs]
            exact hg
          · exact ih1 sub hsub s hs
          · exact ih2 r hr s hs
      · simp only [hg, if_false] at h
        simp only [Option.bind_eq_some, Option.map_eq_some'] at h
        obtain ⟨here, hhere, sub, hsub, r, hr, hout⟩ := h
        injection hhere with hhere2
        subst hhere2
        subst hout
        simp at hs
        rcases hs with hs | hs
        · exact ih1 sub hsub s hs
        · exact ih2 r hr s hs

/-- A flag absent from the flag table matches none of the equality rules of
the decoration chain: the symbol maps to no category and yields no
decoration. -/
theorem makeDecoration1_none_of_unknown (config : Config) (flag : Nat)
    (hflag : isNeedSematic flag = none) (r : OffsetRange) (t : String) (pk : Nat) :
    makeDecoration1 config [{ range := r, kind := flag, text := t, parentKind := pk }] = [] := by
  have h1 : flag ≠ 262144 := by rintro rfl; exact absurd hflag (by decide)
  have h2 : flag ≠ 524288 := by rintro rfl; exact absurd hflag (by decide)
  have h3 : flag ≠ 2 := by rintro rfl; exact absurd hflag (by decide)
  have h4 : flag ≠ 67897832 := by rintro rfl; exact absurd hflag (by decide)
  have h5 : flag ≠ 3 := by rintro rfl; exact absurd hflag (by decide)
  have h6 : flag ≠ 1 := by rintro rfl; exact absurd hflag (by decide)
  have h7 : flag ≠ 384 := by rintro rfl; exact absurd hflag (by decide)
  have h8 : flag ≠ 128 := by rintro rfl; exact absurd hflag (by decide)
  have h9 : flag ≠ 8 := by rintro rfl; exact absurd hflag (by decide)
  simp [makeDecoration1, semanticHighlightFlags.TypeParameter,
    semanticHighlightFlags.TypeAlias, semanticHighlightFlags.BlockScopedVariable,
    semanticHighlightFlags.«Type», semanticHighlightFlags.Variable,
    semanticHighlightFlags.FunctionScopedVariable, semanticHighlightFlags.Enum,
    semanticHighlightFlags.ConstEnum, semanticHighlightFlags.EnumMember,
    h1, h2, h3, h4, h5, h6, h7, h8, h9]

/-- C8: in the older revision, the allow-list membership test gates
classification before the rules run — every candidate the visitor emits has
an allow-listed flag, so a symbol with an unknown flag value is excluded
with no rule matching — and such a flag maps to no category in the rule
chain either. -/
theorem allowListGate_theorem :
    (∀ (resolve : TsNode → Option Symbol) (parent : Option TsNode) (l : List TsNode)
        (out : List SimpleSymbol1),
      visitor1F resolve parent l = some out →
      ∀ s ∈ out, (isNeedSematic s.kind).isSome) ∧
    (∀ (config : Config) (flag : Nat), isNeedSematic flag = none →
      ∀ (r : OffsetRange) (t : String) (pk : Nat),
        makeDecoration1 config [{ range := r, kind := flag, text := t, parentKind := pk }] = []) :=
  ⟨visitor1F_allowList,
   fun config flag hflag r t pk => makeDecoration1_none_of_unknown config flag hflag r t pk⟩

/-- Witness for C8: a resolver that reports the unknown flag 7 everywhere
produces an empty candidate list on a concrete two-node tree, and flag 7
yields no decoration. -/
theorem allowListGate_witness :
    (∀ s ∈ ([] : List SimpleSymbol1), (isNeedSematic s.kind).isSome) ∧
    makeDecoration1 cfg0
      [{ range := { start := 0, endPos := 3 }, kind := 7, text := "x", parentKind := 0 }] = [] :=
  ⟨allowListGate_theorem.1 (fun _ => some { name := "x", flags := 7 }) none
     [TsNode.mk 0 0 3 [TsNode.mk 1 1 2 []]] []
     (by simp only [visitor1F]; decide),
   allowListGate_theorem.2 cfg0 7 (by decide) { start := 0, endPos := 3 } "x" 0⟩

/-- C7: whenever the incremental path reaches the tree update (non-empty
batch, stored baseline), the change range passed to `ts.updateSourceFile`
always spans the whole previous document — start 0, length of the previous
full text, new length of the new full text — and is never the precise
coalesced range of the batched edits whenever that range differs from the
full-document span. -/
theorem fullSpanUpdate_theorem (env : Env) (config : Config)
    (visibleTextEditors : List Editor) (editor : Editor)
    (changesBuffer : List TextChangeBufferItem) (document : Document)
    (typeCheckers : String → Option (TsNode → ResolveResult))
    (sourceFiles : String → Option SourceFile)
    (cachedDecorations : String → Option (List TextEditorDecoration))
    (sf : SourceFile)
    (hbuf : changesBuffer ≠ [])
    (hsf : sourceFiles document.uriString = some sf) :
    ∃ out, doIncrementalHighlight env config visibleTextEditors editor changesBuffer document
        typeCheckers sourceFiles cachedDecorations = some out ∧
      out.updateCall =
        some (createTextChangeRange (createTextSpan 0 sf.fullText.length)
          document.text.length) ∧
      (∀ m M, minProperty changesBuffer (fun c => c.start) = some m →
        maxProperty changesBuffer (fun c => c.endPos) = some M →
        createTextSpan m (M - m) ≠ createTextSpan 0 sf.fullText.length →
        out.updateCall ≠
          some (createTextChangeRange (createTextSpan m (M - m)) document.text.length)) := by
  obtain ⟨m0, hm, _, _⟩ := minProperty_spec changesBuffer (fun c => c.start) hbuf
  obtain ⟨M0, hM, _, _⟩ := maxProperty_spec changesBuffer (fun c => c.endPos) hbuf
  have key : ∃ out, doIncrementalHighlight env config visibleTextEditors editor changesBuffer
      document typeCheckers sourceFiles cachedDecorations = some out ∧
      out.updateCall =
        some (createTextChangeRange (createTextSpan 0 sf.fullText.length)
          document.text.length) := by
    unfold doIncrementalHighlight
    rw [hm, hM]
    dsimp only
    rw [hsf]
    dsimp only
    repeat' split
    all_goals exact ⟨_, rfl, rfl⟩
  obtain ⟨out, hout, hcall⟩ := key
  refine ⟨out, hout, hcall, ?_⟩
  intro m M _ _ hne hcontra
  rw [hcall] at hcontra
  injection hcontra with h3
  exact hne (congrArg TextChangeRange.span h3).symm

/-- Witness for C7 at the concrete covering batch over the baseline `sf0`:
the change range handed to the tree update spans the whole 9-character
previous text. -/
theorem fullSpanUpdate_witness :
    coveringBatch ≠ [] ∧
    st19.sourceFiles doc0.uriString = some sf0 ∧
    ∃ out, doIncrementalHighlight env0 cfg0 [ed0] ed0 coveringBatch doc0 st19.typeCheckers
        st19.sourceFiles st19.cachedDecorations = some out ∧
      out.updateCall =
        some (createTextChangeRange (createTextSpan 0 sf0.fullText.length)
          doc0.text.length) ∧
      (∀ m M, minProperty coveringBatch (fun c => c.start) = some m →
        maxProperty coveringBatch (fun c => c.endPos) = some M →
        createTextSpan m (M - m) ≠ createTextSpan 0 sf0.fullText.length →
        out.updateCall ≠
          some (createTextChangeRange (createTextSpan m (M - m)) doc0.text.length)) :=
  ⟨by decide, rfl,
   fullSpanUpdate_theorem env0 cfg0 [ed0] ed0 coveringBatch doc0 st19.typeCheckers
     st19.sourceFiles st19.cachedDecorations sf0 (by decide) rfl⟩

/-- C10: an active-editor focus change for a document whose `languageId` is
none of "typescript", "typescriptreact" and "javascript" does nothing: the
state (all caches, source files, type checkers, pending buffers) is returned
unchanged, nothing is rendered, and no program is created.  The source's
guard lists "typescriptreact" twice instead of "javascriptreact", so
"javascriptreact" documents fall into this case as well. -/
theorem languageGuard_theorem (env : Env) (config : Config)
    (visibleTextEditors : List Editor) (editor : Editor) (st : ExtState)
    (h : editor.document.languageId ∉
      (["typescript", "typescriptreact", "javascript"] : List String)) :
    onDidChangeActiveTextEditor env config visibleTextEditors (some editor) st =
      { state := st, renders := [], programsCreated := 0 } := by
  simp only [List.mem_cons, List.not_mem_nil, or_false, not_or] at h
  obtain ⟨h1, h2, h3⟩ := h
  unfold onDidChangeActiveTextEditor
  dsimp only
  rw [if_neg]
  intro hcond
  rcases hcond with hc | hc | hc | hc
  · exact h1 hc
  · exact h2 hc
  · exact h3 hc
  · exact h2 hc

/-- The "javascriptreact" editor of the C10 witness. -/
def edJsx : Editor := { document := { doc0 with languageId := "javascriptreact" } }

/-- Witness for C10: focusing a "javascriptreact" document leaves the state
untouched, renders nothing and creates no program. -/
theorem languageGuard_witness :
    edJsx.document.languageId ∉
      (["typescript", "typescriptreact", "javascript"] : List String) ∧
    onDidChangeActiveTextEditor env0 cfg0 [ed0] (some edJsx) st0 =
      { state := st0, renders := [], programsCreated := 0 } :=
  ⟨by decide, languageGuard_theorem env0 cfg0 [ed0] edJsx st0 (by decide)⟩

/-- Resolver of the C6 counterexample: every node resolves to a symbol with
the flag 999, which maps to no category in the rule chain. -/
def checker6 : TsNode → ResolveResult := fun _ => .found "x" 999

/-- Updated source file of the C6 counterexample: one statement spanning
offsets 0 to 9. -/
def sfU : SourceFile := { fullText := "xx", root := .mk 0 0 9 [.mk 1 0 9 []] }

/-- Compiler-service environment of the C6 counterexample: the incremental
update returns `sfU`. -/
def env6 : Env :=
  { updateSourceFile := fun _ _ _ _ => sfU,
    createProgram := fun _ =>
      { typeChecker := fun _ => ResolveResult.missing, sourceFile := none } }

/-- One-edit batch of the C6 counterexample. -/
def buf6 : List TextChangeBufferItem := [{ start := 3, endPos := 4 }]

/-- Type-checker map of the C6 counterexample. -/
def tcs6 : String → Option (TsNode → ResolveResult) := fun u =>
  if u = "file:///a.ts" then some checker6 else none

/-- Source-file map of the C6 counterexample: `doc0` has the baseline
`sf0`. -/
def sfs6 : String → Option SourceFile := fun u =>
  if u = "file:///a.ts" then some sf0 else none

/-- The previously cached decoration of the C6 counterexample. -/
def dPrev : TextEditorDecoration :=
  { decoration := makeDecorationType "#ffffff" false "normal",
    range := { start := 0, endPos := 1 } }

/-- Decoration cache of the C6 counterexample: `doc0` has one previously
rendered decoration. -/
def cds6 : String → Option (List TextEditorDecoration) := fun u =>
  if u = "file:///a.ts" then some [dPrev] else none

/-- The outcome of `doIncrementalHighlight` on the C6 fixtures: two symbols
are resolved (flag 999), so the guard `semanticSymbols.length > 0` passes,
`makeDecoration` yields the empty list, the cache entry is overwritten with
that empty list, and zero render calls are issued. -/
def out6 : DoIncOut :=
  { sourceFiles := mapSet sfs6 "file:///a.ts" (some sfU),
    cachedDecorations := mapSet cds6 "file:///a.ts" (some []),
    renders := [],
    updateCall := some (createTextChangeRange (createTextSpan 0 9) 9) }

/-- Evaluation of `doIncrementalHighlight` on the C6 fixtures. -/
theorem doInc6_eval :
    doIncrementalHighlight env6 cfg0 [ed0] ed0 buf6 doc0 tcs6 sfs6 cds6 = some out6 := by
  simp only [doIncrementalHighlight, env6, sfU, checker6, tcs6, sfs6, cds6, buf6, doc0, ed0,
    sf0, out6, minProperty, maxProperty, visitor, visitorF, makeDecoration,
    setDecorationsCalls, mapSet, SourceFile.statements, TsNode.children, TsNode.pos,
    TsNode.endPos, semanticHighlightFlags.TypeParameter, semanticHighlightFlags.TypeAlias,
    semanticHighlightFlags.BlockScopedVariable, semanticHighlightFlags.«Type»,
    semanticHighlightFlags.Variable, semanticHighlightFlags.FunctionScopedVariable,
    semanticHighlightFlags.Enum, semanticHighlightFlags.ConstEnum,
    semanticHighlightFlags.EnumMember]
  simp [checker6]
  decide

/-- C6 counterexample: on the C6 fixtures the classification pass produces
zero classified ranges — `makeDecoration` returns the empty list although
two symbols were resolved — and indeed nothing is sent to the renderer, but
the per-document decoration cache entry is *not* left unchanged: the
previously cached decoration list `[dPrev]` is overwritten with the empty
list. -/
theorem emptyClassification_counterexample :
    makeDecoration cfg0 (visitor checker6 sfU.root) = [] ∧
    visitor checker6 sfU.root ≠ [] ∧
    (doIncrementalHighlight env6 cfg0 [ed0] ed0 buf6 doc0 tcs6 sfs6 cds6).map
        (fun out => out.renders) = some [] ∧
    cds6 doc0.uriString = some [dPrev] ∧
    (doIncrementalHighlight env6 cfg0 [ed0] ed0 buf6 doc0 tcs6 sfs6 cds6).map
        (fun out => out.cachedDecorations doc0.uriString) = some (some []) ∧
    some (some ([] : List TextEditorDecoration)) ≠
      some (cds6 doc0.uriString) := by
  refine ⟨?_, ?_, ?_, by decide, ?_, by decide⟩
  · simp only [sfU, visitor, visitorF]
    decide
  · simp only [sfU, visitor, visitorF]
    decide
  · rw [doInc6_eval]
    decide
  · rw [doInc6_eval]
    simp [out6, mapSet, doc0]

/-- C6 amended: when the classification pass produces zero classified ranges
(`makeDecoration` returns the empty list), nothing is sent to the decoration
renderer; but the decoration cache entry is guaranteed unchanged only when
zero symbols were resolved — when symbols were resolved and none maps to a
category, the cache entry is overwritten with the empty decoration list. -/
theorem emptyClassification_amended (env : Env) (config : Config)
    (visibleTextEditors : List Editor) (editor : Editor)
    (changesBuffer : List TextChangeBufferItem) (document : Document)
    (typeCheckers : String → Option (TsNode → ResolveResult))
    (sourceFiles : String → Option SourceFile)
    (cachedDecorations : String → Option (List TextEditorDecoration))
    (sf : SourceFile) (out : DoIncOut)
    (hsf : sourceFiles document.uriString = some sf)
    (hout : doIncrementalHighlight env config visibleTextEditors editor changesBuffer document
      typeCheckers sourceFiles cachedDecorations = some out) :
    (∀ checker, typeCheckers document.uriString = some checker →
      makeDecoration config (visitor checker
        (env.updateSourceFile sf document.text
          (createTextChangeRange (createTextSpan 0 sf.fullText.length)
            document.text.length) true).root) = [] →
      out.renders = []) ∧
    (∀ checker, typeCheckers document.uriString = some checker →
      visitor checker
        (env.updateSourceFile sf document.text
          (createTextChangeRange (createTextSpan 0 sf.fullText.length)
            document.text.length) true).root = [] →
      out.renders = [] ∧ out.cachedDecorations = cachedDecorations) := by
  unfold doIncrementalHighlight at hout
  rcases hmin : minProperty changesBuffer (fun c => c.start) with _ | m <;>
    rcases hmax : maxProperty changesBuffer (fun c => c.endPos) with _ | M <;>
    rw [hmin, hmax] at hout
  · cases hout
  · cases hout
  · cases hout
  · dsimp only at hout
    rw [hsf] at hout
    dsimp only at hout
    split at hout
    · rename_i node checker hnode hchecker
      split at hout
      · rename_i hlen
        split at hout
        · rename_i hnomatch
          injection hout with h2
          subst h2
          exact ⟨fun _ _ _ => rfl, fun _ _ _ => ⟨rfl, rfl⟩⟩
        · rename_i hmatch
          injection hout with h2
          subst h2
          constructor
          · intro checker2 hc2 hdec
            rw [hchecker] at hc2
            injection hc2 with hc3
            subst hc3
            simp [hdec, setDecorationsCalls]
          · intro checker2 hc2 hvis
            rw [hchecker] at hc2
            injection hc2 with hc3
            subst hc3
            rw [hvis] at hlen
            simp at hlen
      · injection hout with h2
        subst h2
        exact ⟨fun _ _ _ => rfl, fun _ _ _ => ⟨rfl, rfl⟩⟩
    · injection hout with h2
      subst h2
      exact ⟨fun _ _ _ => rfl, fun _ _ _ => ⟨rfl, rfl⟩⟩

/-- Witness for C6's amended theorem on the C6 fixtures: the pass yields
zero classified ranges and indeed zero render calls are issued. -/
theorem emptyClassification_witness :
    out6.renders = [] :=
  (emptyClassification_amended env6 cfg0 [ed0] ed0 buf6 doc0 tcs6 sfs6 cds6 sf0 out6
      rfl doInc6_eval).1 checker6 rfl
    (by simp only [env6, sfU, visitor, visitorF]; decide)

end TsSemHL
